import Mathlib

/-!
Shallow embedding of the pyBASEX core (files `abel/basex.py` and
`BASEX/core.py`) over exact real arithmetic, together with theorems checking
the natural-language specification's claims against it.

Conventions:
* numpy 2-D float arrays are modelled as total functions `Mat := ℕ → ℕ → ℝ`
  (entries outside the allocated shape are 0, as `np.zeros` initialises them);
  where shape errors matter (`basex_transform`) a shape-carrying `NDMat` is
  used instead, with `numpy.dot`'s shape check made explicit.
* `math.exp`, `math.log` and `scipy.special.gammaln` are modelled by
  `Real.exp`, `Real.log` and `log ∘ Real.Gamma` (exact, no floating point).
* Python exceptions are modelled by `Except PyErr`; the `try/except ValueError`
  chains of the cache loader are modelled by matching on the error's class.
-/

/-- A numpy 2-D array of floats, as a total function on (row, column). -/
abbrev Mat := ℕ → ℕ → ℝ

/-- Single-cell array assignment `A[i, j] = v`. -/
def upd (A : Mat) (i j : ℕ) (v : ℝ) : Mat :=
  fun i' j' => if i' = i ∧ j' = j then v else A i' j'

/-- `scipy.special.gammaln`: the logarithm of the Gamma function. -/
noncomputable def gammaln (x : ℝ) : ℝ := Real.log (Real.Gamma x)

/-- Python exception values raised by the embedded code, tagged by class.
`invalidOddN` and `invalidNbf` are the two `ValueError`s raised by
`generate_basis_sets`; `valueError`/`otherError` are errors arising from
`np.load` and `numpy.dot`; `zeroDivisionError` from float division by zero. -/
inductive PyErr where
  | invalidOddN
  | invalidNbf
  | valueError (msg : String)
  | zeroDivisionError
  | otherError (msg : String)
deriving DecidableEq

/-- Which of the modelled exceptions are instances of Python's `ValueError`
(the two explicit raises of `generate_basis_sets` are `ValueError`s). -/
def PyErr.isValueError : PyErr → Bool
  | .invalidOddN => true
  | .invalidNbf => true
  | .valueError _ => true
  | .zeroDivisionError => false
  | .otherError _ => false

/-- `Rm = n//2 + 1` (line `Rm = n//2 + 1` of `generate_basis_sets`). -/
def Rm (n : ℕ) : ℕ := n / 2 + 1

/-- Entry `i` (0-based) of `R2 = (I - Rm)**2` with `I = np.arange(1, n+1)`. -/
noncomputable def R2 (n i : ℕ) : ℝ := (((i : ℝ) + 1) - (Rm n : ℝ)) ^ 2

/-- The matrix `M` right after `M = np.zeros((n, nbf)); M[:,0] = 2*np.exp(-R2)`. -/
noncomputable def Minit (n : ℕ) : Mat :=
  fun i j => if j = 0 ∧ i < n then 2 * Real.exp (-(R2 n i)) else 0

/-- The matrix `Mc` right after `Mc = np.zeros((n, nbf)); Mc[:,0] = np.exp(-R2)`. -/
noncomputable def Mcinit (n : ℕ) : Mat :=
  fun i j => if j = 0 ∧ i < n then Real.exp (-(R2 n i)) else 0

/-- Module constant `MAX_BASIS_SET_OFFSET = 4000`. -/
def MAX_BASIS_SET_OFFSET : ℤ := 4000

/-- Entry `k` of `delta = np.fmax(np.arange(nbf)*32 - MAX_BASIS_SET_OFFSET,
MAX_BASIS_SET_OFFSET)` (the array is indexed only at `k < nbf`). -/
def delta (k : ℕ) : ℤ := max (32 * (k : ℤ) - MAX_BASIS_SET_OFFSET) MAX_BASIS_SET_OFFSET

/-- `angn = exp(k2 - 2*k2*log(k) + gammaln(k2 + 0.5) - gammaln(0.5))` with
`k2 = k*k`. -/
noncomputable def angn (k : ℕ) : ℝ :=
  Real.exp ((k : ℝ) * k - 2 * ((k : ℝ) * k) * Real.log k +
    gammaln ((k : ℝ) * k + 0.5) - gammaln 0.5)

/-- `val = exp(k2 - l2 + 2*k2*log((1.0*l)/k))`. -/
noncomputable def val (k l : ℕ) : ℝ :=
  Real.exp ((k : ℝ) * k - (l : ℝ) * l + 2 * ((k : ℝ) * k) * Real.log ((l : ℝ) / k))

/-- One element of the vectorized series
`np.exp(k2 - l2 - k2*log_k2 + p*log_l2 + gammaln(k2+1) - gammaln(p+1)
 + gammaln(k2 - p + 0.5) - gammaln_0o5 - gammaln(k2 - p + 1))`. -/
noncomputable def seriesTerm (k l : ℕ) (p : ℤ) : ℝ :=
  Real.exp ((k : ℝ) * k - (l : ℝ) * l - ((k : ℝ) * k) * Real.log ((k : ℝ) * k) +
    (p : ℝ) * Real.log ((l : ℝ) * l) +
    gammaln ((k : ℝ) * k + 1) - gammaln ((p : ℝ) + 1) +
    gammaln ((k : ℝ) * k - (p : ℝ) + 0.5) - gammaln 0.5 -
    gammaln ((k : ℝ) * k - (p : ℝ) + 1))

/-- The summed series over `p = np.arange(max(1, l2 - delta[k]),
min(k2 - 1, l2 + delta[k]) + 1)` (an empty range sums to 0). -/
noncomputable def seriesSum (k l : ℕ) : ℝ :=
  ∑ p in Finset.Icc (max 1 ((l : ℤ) * l - delta k)) (min ((k : ℤ) * k - 1) ((l : ℤ) * l + delta k)),
    seriesTerm k l p

/-- Body of the loop `for l in range(1, n-Rm+1)` of `generate_basis_sets`, for
basis index `k`, acting on the state `(M, Mc)`. -/
noncomputable def bodyL (r k : ℕ) (st : Mat × Mat) (l : ℕ) : Mat × Mat :=
  let v := val k l
  let Mc1 := upd (upd st.2 (l - 1 + r) k v) (r - l - 1) k v
  let aux := (v + angn k * Mc1 (l + r - 1) 0 + seriesSum k l) * 2
  (upd (upd st.1 (l + r - 1) k aux) (r - l - 1) k aux, Mc1)

/-- Body of the loop `for k in range(1, nbf)` of `generate_basis_sets`: the
center-row assignment `M[Rm-1, k] = 2*angn` followed by the inner loop over
`l`. -/
noncomputable def bodyK (n : ℕ) (st : Mat × Mat) (k : ℕ) : Mat × Mat :=
  (List.range' 1 (n - Rm n)).foldl (bodyL (Rm n) k)
    (upd st.1 (Rm n - 1) k (2 * angn k), st.2)

/-- The pair `(M, Mc)` produced by the loops of `generate_basis_sets` for an
`n` and `nbf` that passed its two validity checks. -/
noncomputable def genLoop (n nbf : ℕ) : Mat × Mat :=
  (List.range' 1 (nbf - 1)).foldl (bodyK n) (Minit n, Mcinit n)

/-- `_nbf_default(n, nbf)`: `nbf='auto'` (modelled as `none`) becomes `n//2`;
an explicit `nbf` is kept unchanged (the function only prints a warning). -/
def nbf_default (n : ℕ) (nbf : Option ℕ) : ℕ := nbf.getD (n / 2)

/-- `generate_basis_sets(n, nbf)`: raises `ValueError` when `n` is even,
resolves `nbf='auto'`, raises `ValueError` when `n//2 < nbf`, and otherwise
runs the basis-set loops. -/
noncomputable def generate_basis_sets (n : ℕ) (nbf? : Option ℕ) : Except PyErr (Mat × Mat) :=
  if n % 2 = 0 then .error .invalidOddN
  else
    let nbf := nbf_default n nbf?
    if n / 2 < nbf then .error .invalidNbf
    else .ok (genLoop n nbf)

/-! ### The operator builder `_get_left_right_matrices` / `get_left_right_matrices` -/

/-- `numpy.dot` on shape-compatible 2-D arrays, elementwise. -/
noncomputable def npdot {a b c : ℕ} (A : Matrix (Fin a) (Fin b) ℝ)
    (B : Matrix (Fin b) (Fin c) ℝ) : Matrix (Fin a) (Fin c) ℝ :=
  fun i j => ∑ t : Fin b, A i t * B t j

/-- `np.identity(m)`. -/
def npidentity (m : ℕ) : Matrix (Fin m) (Fin m) ℝ :=
  fun i j => if i = j then 1 else 0

/-- `_get_left_right_matrices(M, Mc)` of `abel/basex.py` (identical algebra to
`get_left_right_matrices` of `BASEX/core.py`):
`M_left = inv(Mc.T.dot(Mc)).dot(Mc.T)`; `q = 1`; `E = np.identity(nbf)*q`;
`M_right = M.dot(inv(M.T.dot(M) + E))`. -/
noncomputable def get_left_right_matrices {n nbf : ℕ}
    (M Mc : Matrix (Fin n) (Fin nbf) ℝ) :
    Matrix (Fin nbf) (Fin n) ℝ × Matrix (Fin n) (Fin nbf) ℝ :=
  let M_left := npdot (npdot Mc.transpose Mc)⁻¹ Mc.transpose
  let q : ℝ := 1
  let E : Matrix (Fin nbf) (Fin nbf) ℝ := fun i j => npidentity nbf i j * q
  let M_right := npdot M (npdot M.transpose M + E)⁻¹
  (M_left, M_right)

/-! ### The transformer `basex_transform` -/

/-- A numpy 2-D array carrying its shape, for the parts of the embedding where
shape mismatches must surface as errors. -/
structure NDMat where
  rows : ℕ
  cols : ℕ
  entry : ℕ → ℕ → ℝ

/-- `numpy.dot`: matrix product when the inner dimensions agree, `ValueError`
otherwise. -/
noncomputable def NDMat.dot (A B : NDMat) : Except PyErr NDMat :=
  if A.cols = B.rows then
    .ok ⟨A.rows, B.cols, fun i j => ∑ t in Finset.range A.cols, A.entry i t * B.entry t j⟩
  else .error (.valueError ("shapes not aligned"))

/-- Array transposition `A.T`. -/
def NDMat.T (A : NDMat) : NDMat := ⟨A.cols, A.rows, fun i j => A.entry j i⟩

/-- In-place scalar multiplication `A *= c`, elementwise. -/
def NDMat.scale (A : NDMat) (c : ℝ) : NDMat :=
  ⟨A.rows, A.cols, fun i j => A.entry i j * c⟩

/-- `MAGIC_NUMBER = 8.053` of `basex_transform`. -/
noncomputable def MAGIC_NUMBER : ℝ := 8.053

/-- `basex_transform(rawdata, M, Mc, M_left, M_right, dr)`:
`Ci = M_left.dot(rawdata).dot(M_right)`; `IM = Mc.dot(Ci).dot(Mc.T)`;
`IM *= MAGIC_NUMBER/dr` (float division by `dr = 0` raises
`ZeroDivisionError`). The parameter `M` is accepted but unused, as in the
source. -/
noncomputable def basex_transform (rawdata M Mc M_left M_right : NDMat) (dr : ℝ) :
    Except PyErr NDMat :=
  (M_left.dot rawdata).bind fun t1 =>
  (t1.dot M_right).bind fun Ci =>
  (Mc.dot Ci).bind fun t2 =>
  (t2.dot Mc.T).bind fun IM =>
  if dr = 0 then .error .zeroDivisionError
  else .ok (IM.scale (MAGIC_NUMBER / dr))

/-- View a shaped Mathlib matrix as an `NDMat` (entries outside the shape 0). -/
noncomputable def ofMat {a b : ℕ} (A : Matrix (Fin a) (Fin b) ℝ) : NDMat :=
  ⟨a, b, fun i j => if h : i < a ∧ j < b then A ⟨i, h.1⟩ ⟨j, h.2⟩ else 0⟩

/-- Whether an `Except` result is a normal return (no exception). -/
def isOkB {α : Type} : Except PyErr α → Bool
  | .ok _ => true
  | .error _ => false

/-! ### The disk cache `get_basis_sets_cached` -/

/-- The four matrices returned by `get_basis_sets_cached`, under the names the
current on-disk format `(M, Mc, M_left, M_right, version)` gives them. -/
structure Bundle where
  M : Mat
  Mc : Mat
  M_left : Mat
  M_right : Mat

/-- What `np.load` finds in a stored basis file: a current-format 5-tuple, a
legacy 4-tuple `(M_left, M_right, M, Mc)`, a loadable object of some other
arity (`ValueError` on unpacking in both formats), or a file on which
`np.load` itself raises (`isVE` tells whether that exception is a
`ValueError`). -/
inductive StoredFile where
  | npy5 (M Mc M_left M_right : Mat) (version : String)
  | npy4 (M_left M_right M Mc : Mat)
  | badArity
  | unreadable (isVE : Bool) (msg : String)

/-- `M, Mc, M_left, M_right, M_version = np.load(path)`: the current-format
load attempt. -/
def npLoad5 : StoredFile → Except PyErr (Mat × Mat × Mat × Mat × String)
  | .npy5 M Mc ML MR v => .ok (M, Mc, ML, MR, v)
  | .npy4 _ _ _ _ => .error (.valueError ("not enough values to unpack"))
  | .badArity => .error (.valueError ("values to unpack mismatch"))
  | .unreadable true msg => .error (.valueError msg)
  | .unreadable false msg => .error (.otherError msg)

/-- `M_left, M_right, M, Mc = np.load(path)`: the legacy-format load attempt. -/
def npLoad4 : StoredFile → Except PyErr (Mat × Mat × Mat × Mat)
  | .npy5 _ _ _ _ _ => .error (.valueError ("too many values to unpack"))
  | .npy4 ML MR M Mc => .ok (ML, MR, M, Mc)
  | .badArity => .error (.valueError ("values to unpack mismatch"))
  | .unreadable true msg => .error (.valueError msg)
  | .unreadable false msg => .error (.otherError msg)

/-- The basis directory as a map from the deterministic file key
`basex_basis_{n}_{nbf}.npy` (modelled by the pair `(n, nbf)`) to the stored
file, when one exists. -/
abbrev Store := ℕ × ℕ → Option StoredFile

/-- Functional overwrite of one file of a basis directory. -/
def storePut (fs : Store) (key : ℕ × ℕ) (f : StoredFile) : Store :=
  fun key' => if key' = key then some f else fs key'

/-- Modelled from the spec: the current format-version tag written into saved
bundles (`np.array(__version__)`; the repository's `_version` module is not
under `src/`). Its value is never branched on. -/
def formatVersion : String := "0.5"

/-- `M_left, M_right` as stored by the cache layer: `_get_left_right_matrices`
applied to the first `n × nbf` block of the synthesized matrices. -/
noncomputable def glrmFlat (n nbf : ℕ) (M Mc : Mat) : Mat × Mat :=
  let p := get_left_right_matrices
    ((fun i j => M i j) : Matrix (Fin n) (Fin nbf) ℝ)
    ((fun i j => Mc i j) : Matrix (Fin n) (Fin nbf) ℝ)
  (fun i j => if h : i < nbf ∧ j < n then p.1 ⟨i, h.1⟩ ⟨j, h.2⟩ else 0,
   fun i j => if h : i < n ∧ j < nbf then p.2 ⟨i, h.1⟩ ⟨j, h.2⟩ else 0)

/-- Outcome of one `get_basis_sets_cached` call: its return value or raised
exception, the basis directory afterwards (`none` when `basis_dir=None`),
how many times `generate_basis_sets` was invoked, and whether the legacy
load was attempted. -/
structure CacheOutcome where
  result : Except PyErr Bundle
  store : Option Store
  synthCount : ℕ
  legacyTried : Bool

/-- `get_basis_sets_cached(n, nbf, basis_dir)`: resolve `nbf`, and when a
basis directory is given and the file exists, try the current format; on a
`ValueError` fall back to the legacy format; re-raise any other failure.
When no file was loaded, synthesize, build the operators, and (when a
directory is given) save the new bundle in the current format. -/
noncomputable def get_basis_sets_cached (n : ℕ) (nbf? : Option ℕ)
    (basis_dir : Option Store) : CacheOutcome :=
  let nbf := nbf_default n nbf?
  match basis_dir with
  | none =>
    match generate_basis_sets n (some nbf) with
    | .error e => ⟨.error e, none, 1, false⟩
    | .ok (M, Mc) =>
      let lr := glrmFlat n nbf M Mc
      ⟨.ok ⟨M, Mc, lr.1, lr.2⟩, none, 1, false⟩
  | some fs =>
    match fs (n, nbf) with
    | some file =>
      match npLoad5 file with
      | .ok (M, Mc, ML, MR, _) => ⟨.ok ⟨M, Mc, ML, MR⟩, some fs, 0, false⟩
      | .error e =>
        if e.isValueError then
          match npLoad4 file with
          | .ok (ML, MR, M, Mc) => ⟨.ok ⟨M, Mc, ML, MR⟩, some fs, 0, true⟩
          | .error e2 => ⟨.error e2, some fs, 0, true⟩
        else ⟨.error e, some fs, 0, false⟩
    | none =>
      match generate_basis_sets n (some nbf) with
      | .error e => ⟨.error e, some fs, 1, false⟩
      | .ok (M, Mc) =>
        let lr := glrmFlat n nbf M Mc
        ⟨.ok ⟨M, Mc, lr.1, lr.2⟩,
         some (storePut fs (n, nbf) (.npy5 M Mc lr.1 lr.2 formatVersion)), 1, false⟩

/-- Whether the stored file at a path loads in at least one of the two
formats (so that the cache lookup returns it without synthesizing). -/
def loadable : Option StoredFile → Bool
  | some file => isOkB (npLoad5 file) || isOkB (npLoad4 file)
  | none => false

/-- Line `n = 2*(n//2) + 1` of `BASEX.__init__` (both implementations). -/
def BASEXn (n : ℕ) : ℕ := 2 * (n / 2) + 1

/-- The `BASEX.__init__` pipeline of `abel/basex.py`: coerce `n` to odd, then
load or build the basis bundle through the cache. -/
noncomputable def BASEX_init (n : ℕ) (nbf? : Option ℕ) (basis_dir : Option Store) :
    CacheOutcome :=
  get_basis_sets_cached (BASEXn n) nbf? basis_dir

/-! ### Cell-level lemmas about the synthesis loops -/

theorem upd_self (A : Mat) (i j : ℕ) (v : ℝ) : upd A i j v i j = v := by
  simp [upd]

theorem upd_row_ne (A : Mat) (i j i' j' : ℕ) (v : ℝ) (h : i' ≠ i) :
    upd A i j v i' j' = A i' j' := by
  simp only [upd, if_neg (fun hc : i' = i ∧ j' = j => h hc.1)]

theorem upd_col_ne (A : Mat) (i j i' j' : ℕ) (v : ℝ) (h : j' ≠ j) :
    upd A i j v i' j' = A i' j' := by
  simp only [upd, if_neg (fun hc : i' = i ∧ j' = j => h hc.2)]

/-- The inner loop never writes `Mc` outside column `k`. -/
theorem foldL_Mc_col (r k : ℕ) (ls : List ℕ) (st : Mat × Mat) (i j : ℕ) (hj : j ≠ k) :
    ((ls.foldl (bodyL r k) st).2) i j = st.2 i j := by
  induction ls generalizing st with
  | nil => rfl
  | cons l ls ih =>
    rw [List.foldl_cons, ih]
    simp only [bodyL]
    rw [upd_col_ne _ _ _ _ _ _ hj, upd_col_ne _ _ _ _ _ _ hj]

/-- The inner loop never writes `M` outside column `k`. -/
theorem foldL_M_col (r k : ℕ) (ls : List ℕ) (st : Mat × Mat) (i j : ℕ) (hj : j ≠ k) :
    ((ls.foldl (bodyL r k) st).1) i j = st.1 i j := by
  induction ls generalizing st with
  | nil => rfl
  | cons l ls ih =>
    rw [List.foldl_cons, ih]
    simp only [bodyL]
    rw [upd_col_ne _ _ _ _ _ _ hj, upd_col_ne _ _ _ _ _ _ hj]

/-- Within column `k`, the inner loop leaves every `M` row it does not
explicitly target unchanged. -/
theorem foldL_M_row (r k : ℕ) (ls : List ℕ) (st : Mat × Mat) (i : ℕ)
    (hi : ∀ l ∈ ls, i ≠ l + r - 1 ∧ i ≠ r - l - 1) :
    ((ls.foldl (bodyL r k) st).1) i k = st.1 i k := by
  induction ls generalizing st with
  | nil => rfl
  | cons l ls ih =>
    rw [List.foldl_cons, ih _ (fun l' hl' => hi l' (List.mem_cons_of_mem _ hl'))]
    have h1 := (hi l (List.mem_cons_self _ _)).1
    have h2 := (hi l (List.mem_cons_self _ _)).2
    simp only [bodyL]
    rw [upd_row_ne _ _ _ _ _ _ h2, upd_row_ne _ _ _ _ _ _ h1]

/-- Within column `k`, the inner loop leaves every `Mc` row it does not
explicitly target unchanged. -/
theorem foldL_Mc_row (r k : ℕ) (ls : List ℕ) (st : Mat × Mat) (i : ℕ)
    (hi : ∀ l ∈ ls, i ≠ l - 1 + r ∧ i ≠ r - l - 1) :
    ((ls.foldl (bodyL r k) st).2) i k = st.2 i k := by
  induction ls generalizing st with
  | nil => rfl
  | cons l ls ih =>
    rw [List.foldl_cons, ih _ (fun l' hl' => hi l' (List.mem_cons_of_mem _ hl'))]
    have h1 := (hi l (List.mem_cons_self _ _)).1
    have h2 := (hi l (List.mem_cons_self _ _)).2
    simp only [bodyL]
    rw [upd_row_ne _ _ _ _ _ _ h2, upd_row_ne _ _ _ _ _ _ h1]

/-- Value finally left in `M[l0 + r - 1, k]` by the inner loop over
`l = a, ..., a + b - 1`. -/
theorem foldL_M_write (r k : ℕ) (hk : k ≠ 0) (hr : 1 ≤ r) :
    ∀ b a, 1 ≤ a → ∀ (st : Mat × Mat) (l0 : ℕ), a ≤ l0 → l0 < a + b →
    ((List.range' a b).foldl (bodyL r k) st).1 (l0 + r - 1) k =
      (val k l0 + angn k * st.2 (l0 + r - 1) 0 + seriesSum k l0) * 2 := by
  intro b
  induction b with
  | zero => intro a ha st l0 h1 h2; omega
  | succ b ih =>
    intro a ha st l0 h1 h2
    rw [List.range'_succ, List.foldl_cons]
    by_cases hla : l0 = a
    · subst hla
      rw [foldL_M_row _ _ _ _ _ (by
        intro l' hl'
        rw [List.mem_range'_1] at hl'
        omega)]
      simp only [bodyL]
      rw [upd_row_ne _ _ _ _ _ _ (by omega), upd_self,
        upd_col_ne _ _ _ _ _ _ (Ne.symm hk), upd_col_ne _ _ _ _ _ _ (Ne.symm hk)]
    · rw [ih (a + 1) (by omega) _ l0 (by omega) (by omega)]
      simp only [bodyL]
      rw [upd_col_ne _ _ _ _ _ _ (Ne.symm hk), upd_col_ne _ _ _ _ _ _ (Ne.symm hk)]

/-- Value finally left in the mirrored cell `M[r - l0 - 1, k]` by the inner
loop over `l = a, ..., a + b - 1`, when the whole range stays below `r`. -/
theorem foldL_M_write_mirror (r k : ℕ) (hk : k ≠ 0) (hr : 1 ≤ r) :
    ∀ b a, 1 ≤ a → a + b ≤ r → ∀ (st : Mat × Mat) (l0 : ℕ), a ≤ l0 → l0 < a + b →
    ((List.range' a b).foldl (bodyL r k) st).1 (r - l0 - 1) k =
      (val k l0 + angn k * st.2 (l0 + r - 1) 0 + seriesSum k l0) * 2 := by
  intro b
  induction b with
  | zero => intro a ha hb st l0 h1 h2; omega
  | succ b ih =>
    intro a ha hb st l0 h1 h2
    rw [List.range'_succ, List.foldl_cons]
    by_cases hla : l0 = a
    · subst hla
      rw [foldL_M_row _ _ _ _ _ (by
        intro l' hl'
        rw [List.mem_range'_1] at hl'
        omega)]
      simp only [bodyL]
      rw [upd_self,
        upd_col_ne _ _ _ _ _ _ (Ne.symm hk), upd_col_ne _ _ _ _ _ _ (Ne.symm hk)]
    · rw [ih (a + 1) (by omega) (by omega) _ l0 (by omega) (by omega)]
      simp only [bodyL]
      rw [upd_col_ne _ _ _ _ _ _ (Ne.symm hk), upd_col_ne _ _ _ _ _ _ (Ne.symm hk)]

/-- Value finally left in `Mc[l0 - 1 + r, k]` by the inner loop. -/
theorem foldL_Mc_write (r k : ℕ) (hr : 1 ≤ r) :
    ∀ b a, 1 ≤ a → ∀ (st : Mat × Mat) (l0 : ℕ), a ≤ l0 → l0 < a + b →
    ((List.range' a b).foldl (bodyL r k) st).2 (l0 - 1 + r) k = val k l0 := by
  intro b
  induction b with
  | zero => intro a ha st l0 h1 h2; omega
  | succ b ih =>
    intro a ha st l0 h1 h2
    rw [List.range'_succ, List.foldl_cons]
    by_cases hla : l0 = a
    · subst hla
      rw [foldL_Mc_row _ _ _ _ _ (by
        intro l' hl'
        rw [List.mem_range'_1] at hl'
        omega)]
      simp only [bodyL]
      rw [upd_row_ne _ _ _ _ _ _ (by omega), upd_self]
    · rw [ih (a + 1) (by omega) _ l0 (by omega) (by omega)]

/-- Value finally left in the mirrored cell `Mc[r - l0 - 1, k]` by the inner
loop, when the whole range stays below `r`. -/
theorem foldL_Mc_write_mirror (r k : ℕ) (hr : 1 ≤ r) :
    ∀ b a, 1 ≤ a → a + b ≤ r → ∀ (st : Mat × Mat) (l0 : ℕ), a ≤ l0 → l0 < a + b →
    ((List.range' a b).foldl (bodyL r k) st).2 (r - l0 - 1) k = val k l0 := by
  intro b
  induction b with
  | zero => intro a ha hb st l0 h1 h2; omega
  | succ b ih =>
    intro a ha hb st l0 h1 h2
    rw [List.range'_succ, List.foldl_cons]
    by_cases hla : l0 = a
    · subst hla
      rw [foldL_Mc_row _ _ _ _ _ (by
        intro l' hl'
        rw [List.mem_range'_1] at hl'
        omega)]
      simp only [bodyL]
      rw [upd_self]
    · rw [ih (a + 1) (by omega) (by omega) _ l0 (by omega) (by omega)]

/-- The outer loop never writes either matrix in a column whose index it does
not visit. -/
theorem foldK_col (n : ℕ) (ks : List ℕ) (st : Mat × Mat) (i j : ℕ) (hj : j ∉ ks) :
    ((ks.foldl (bodyK n) st).1 i j = st.1 i j ∧ (ks.foldl (bodyK n) st).2 i j = st.2 i j) := by
  induction ks generalizing st with
  | nil => exact ⟨rfl, rfl⟩
  | cons k ks ih =>
    have hjk : j ≠ k := fun h => hj (h ▸ List.mem_cons_self _ _)
    have hmem : j ∉ ks := fun h => hj (List.mem_cons_of_mem _ h)
    rw [List.foldl_cons]
    constructor
    · rw [(ih _ hmem).1]
      simp only [bodyK]
      rw [foldL_M_col _ _ _ _ _ _ hjk]
      exact upd_col_ne _ _ _ _ _ _ hjk
    · rw [(ih _ hmem).2]
      simp only [bodyK]
      rw [foldL_Mc_col _ _ _ _ _ _ hjk]

/-- Column 0 of both synthesized matrices is exactly its initial assignment:
the outer loop only visits columns `k ≥ 1`. -/
theorem genLoop_col0 (n nbf i : ℕ) (hi : i < n) :
    (genLoop n nbf).1 i 0 = 2 * Real.exp (-(R2 n i)) ∧
    (genLoop n nbf).2 i 0 = Real.exp (-(R2 n i)) := by
  have h0 : (0 : ℕ) ∉ List.range' 1 (nbf - 1) := by
    rw [List.mem_range'_1]; omega
  have h := foldK_col n (List.range' 1 (nbf - 1)) (Minit n, Mcinit n) i 0 h0
  unfold genLoop
  refine ⟨?_, ?_⟩
  · rw [h.1]; simp [Minit, hi]
  · rw [h.2]; simp [Mcinit, hi]

/-- The cells of column `k ≥ 1` that the loops of `generate_basis_sets` write:
center row of `M`, the two mirrored `M` rows, and the two mirrored `Mc` rows
for each offset `l`. -/
theorem genLoop_entries (n nbf k : ℕ) (hodd : n % 2 = 1) (hk1 : 1 ≤ k) (hk2 : k < nbf) :
    (genLoop n nbf).1 (Rm n - 1) k = 2 * angn k ∧
    ∀ l, 1 ≤ l → l ≤ n - Rm n →
      ((genLoop n nbf).1 (l + Rm n - 1) k
          = (val k l + angn k * Real.exp (-((l : ℝ) ^ 2)) + seriesSum k l) * 2 ∧
       (genLoop n nbf).1 (Rm n - l - 1) k
          = (val k l + angn k * Real.exp (-((l : ℝ) ^ 2)) + seriesSum k l) * 2 ∧
       (genLoop n nbf).2 (l - 1 + Rm n) k = val k l ∧
       (genLoop n nbf).2 (Rm n - l - 1) k = val k l) := by
  have hrm : Rm n = n / 2 + 1 := rfl
  have hk0 : k ≠ 0 := by omega
  have hsplit : List.range' 1 (k - 1) ++ k :: List.range' (k + 1) (nbf - 1 - k) =
      List.range' 1 (nbf - 1) := by
    have hcons : k :: List.range' (k + 1) (nbf - 1 - k) = List.range' k (nbf - k) := by
      rw [show nbf - k = (nbf - 1 - k) + 1 from by omega, List.range'_succ]
    rw [hcons, show List.range' k (nbf - k) = List.range' (1 + (k - 1)) (nbf - k) from by
      rw [show 1 + (k - 1) = k from by omega], List.range'_append_1]
    congr 1
    omega
  unfold genLoop
  rw [← hsplit, List.foldl_append, List.foldl_cons]
  set A := (List.range' 1 (k - 1)).foldl (bodyK n) (Minit n, Mcinit n) with hA
  have hA2 : ∀ i, A.2 i 0 = Mcinit n i 0 := fun i =>
    (foldK_col n (List.range' 1 (k - 1)) (Minit n, Mcinit n) i 0
      (by rw [List.mem_range'_1]; omega)).2
  have hknot : k ∉ List.range' (k + 1) (nbf - 1 - k) := by
    rw [List.mem_range'_1]; omega
  have hcol := fun i =>
    foldK_col n (List.range' (k + 1) (nbf - 1 - k)) (bodyK n A k) i k hknot
  constructor
  · rw [(hcol _).1]
    simp only [bodyK]
    rw [foldL_M_row _ _ _ _ _ (by
      intro l' hl'
      rw [List.mem_range'_1] at hl'
      omega)]
    exact upd_self _ _ _ _
  · intro l hl1 hl2
    have hread : ((upd A.1 (Rm n - 1) k (2 * angn k), A.2) : Mat × Mat).2
        (l + Rm n - 1) 0 = Real.exp (-((l : ℝ) ^ 2)) := by
      show A.2 (l + Rm n - 1) 0 = _
      rw [hA2]
      have hlt : l + Rm n - 1 < n := by omega
      have hR : R2 n (l + Rm n - 1) = (l : ℝ) ^ 2 := by
        unfold R2
        rw [Nat.cast_sub (by omega : 1 ≤ l + Rm n)]
        push_cast
        ring
      simp [Mcinit, hlt, hR]
    refine ⟨?_, ?_, ?_, ?_⟩
    · rw [(hcol _).1]
      simp only [bodyK]
      rw [foldL_M_write (Rm n) k hk0 (by omega) (n - Rm n) 1 (le_refl 1) _ l hl1 (by omega),
        hread]
    · rw [(hcol _).1]
      simp only [bodyK]
      rw [foldL_M_write_mirror (Rm n) k hk0 (by omega) (n - Rm n) 1 (le_refl 1) (by omega)
        _ l hl1 (by omega), hread]
    · rw [(hcol _).2]
      simp only [bodyK]
      rw [foldL_Mc_write (Rm n) k (by omega) (n - Rm n) 1 (le_refl 1) _ l hl1 (by omega)]
    · rw [(hcol _).2]
      simp only [bodyK]
      rw [foldL_Mc_write_mirror (Rm n) k (by omega) (n - Rm n) 1 (le_refl 1) (by omega)
        _ l hl1 (by omega)]

/-- The `angn` of the source, rewritten with squares (as the spec states it). -/
theorem angn_eq (k : ℕ) : angn k =
    Real.exp ((k:ℝ)^2 - 2*(k:ℝ)^2*Real.log k +
      Real.log (Real.Gamma ((k:ℝ)^2 + 0.5)) - Real.log (Real.Gamma 0.5)) := by
  unfold angn gammaln
  simp only [pow_two]

/-- The `val` of the source, rewritten with squares (as the spec states it). -/
theorem val_eq (k l : ℕ) : val k l =
    Real.exp ((k:ℝ)^2 - (l:ℝ)^2 + 2*(k:ℝ)^2*Real.log ((l:ℝ)/k)) := by
  unfold val
  simp only [pow_two]

/-- A valid configuration passes both checks of `generate_basis_sets`. -/
theorem generate_ok (n nbf : ℕ) (hodd : n % 2 = 1) (h2 : nbf ≤ n / 2) :
    generate_basis_sets n (some nbf) = .ok (genLoop n nbf) := by
  unfold generate_basis_sets
  rw [if_neg (by omega)]
  simp only [nbf_default, Option.getD_some]
  rw [if_neg (not_lt.mpr h2)]

/-- C1: for every valid configuration (`size` odd, `1 ≤ basis_count ≤ size//2`)
and basis index `1 ≤ k ≤ basis_count−1`, the synthesized `M` has center-row
entry `2·angn` with `angn = exp(k² − 2k²·ln k + lnΓ(k²+0.5) − lnΓ(0.5))`, and
for every offset `1 ≤ l ≤ size−center` both mirrored entries equal
`2 × (val + angn·exp(−l²) + S)` with `val = exp(k² − l² + 2k²·ln(l/k))` and
`S` the truncated log-domain series `seriesSum` over
`p ∈ [max(1, l²−Δ(k)), min(k²−1, l²+Δ(k))]`, `Δ(k) = max(32k−4000, 4000)`. -/
theorem c1_synthesized_M_entries (n nbf k : ℕ) (hodd : n % 2 = 1) (h1 : 1 ≤ nbf)
    (h2 : nbf ≤ n / 2) (hk1 : 1 ≤ k) (hk2 : k ≤ nbf - 1) :
    generate_basis_sets n (some nbf) = .ok (genLoop n nbf) ∧
    (genLoop n nbf).1 (Rm n - 1) k =
      2 * Real.exp ((k:ℝ)^2 - 2*(k:ℝ)^2*Real.log k +
        Real.log (Real.Gamma ((k:ℝ)^2 + 0.5)) - Real.log (Real.Gamma 0.5)) ∧
    ∀ l, 1 ≤ l → l ≤ n - Rm n →
      ((genLoop n nbf).1 (Rm n - 1 + l) k =
        2 * (Real.exp ((k:ℝ)^2 - (l:ℝ)^2 + 2*(k:ℝ)^2*Real.log ((l:ℝ)/k)) +
          Real.exp ((k:ℝ)^2 - 2*(k:ℝ)^2*Real.log k +
            Real.log (Real.Gamma ((k:ℝ)^2 + 0.5)) - Real.log (Real.Gamma 0.5)) *
          Real.exp (-((l:ℝ)^2)) + seriesSum k l) ∧
       (genLoop n nbf).1 (Rm n - 1 - l) k =
        2 * (Real.exp ((k:ℝ)^2 - (l:ℝ)^2 + 2*(k:ℝ)^2*Real.log ((l:ℝ)/k)) +
          Real.exp ((k:ℝ)^2 - 2*(k:ℝ)^2*Real.log k +
            Real.log (Real.Gamma ((k:ℝ)^2 + 0.5)) - Real.log (Real.Gamma 0.5)) *
          Real.exp (-((l:ℝ)^2)) + seriesSum k l)) := by
  have hg := genLoop_entries n nbf k hodd hk1 (by omega)
  refine ⟨generate_ok n nbf hodd h2, ?_, ?_⟩
  · rw [hg.1, angn_eq]
  · intro l hl1 hl2
    have he := hg.2 l hl1 hl2
    have hrm : Rm n = n / 2 + 1 := rfl
    have hidx : Rm n - 1 + l = l + Rm n - 1 := by omega
    have hidx2 : Rm n - 1 - l = Rm n - l - 1 := by omega
    constructor
    · rw [hidx, he.1, angn_eq, val_eq]; ring
    · rw [hidx2, he.2.1, angn_eq, val_eq]; ring

theorem c1_witness :
    (genLoop 5 2).1 (Rm 5 - 1) 1 =
      2 * Real.exp (((1:ℕ):ℝ)^2 - 2*((1:ℕ):ℝ)^2*Real.log ((1:ℕ):ℝ) +
        Real.log (Real.Gamma (((1:ℕ):ℝ)^2 + 0.5)) - Real.log (Real.Gamma 0.5)) :=
  (c1_synthesized_M_entries 5 2 1 (by decide) (by decide) (by decide) (by decide)
    (by decide)).2.1

/-- C2: for every valid configuration, with `center = size//2 + 1` and
`R2[i] = (i − center)²` (1-based `i`), the synthesized matrices satisfy
`M[:,0] = 2·exp(−R2)` and `Mc[:,0] = exp(−R2)`, and for every basis index
`k ≥ 1` and offset `l` both mirrored `Mc` entries equal
`exp(k² − l² + 2k²·ln(l/k))`. -/
theorem c2_synthesized_Mc_entries (n nbf : ℕ) (hodd : n % 2 = 1) (h1 : 1 ≤ nbf)
    (h2 : nbf ≤ n / 2) :
    generate_basis_sets n (some nbf) = .ok (genLoop n nbf) ∧
    (∀ i, 1 ≤ i → i ≤ n →
      (genLoop n nbf).1 (i - 1) 0 = 2 * Real.exp (-(((i:ℝ) - (Rm n : ℝ))^2)) ∧
      (genLoop n nbf).2 (i - 1) 0 = Real.exp (-(((i:ℝ) - (Rm n : ℝ))^2))) ∧
    (∀ k l, 1 ≤ k → k < nbf → 1 ≤ l → l ≤ n - Rm n →
      (genLoop n nbf).2 (Rm n - 1 + l) k =
        Real.exp ((k:ℝ)^2 - (l:ℝ)^2 + 2*(k:ℝ)^2*Real.log ((l:ℝ)/k)) ∧
      (genLoop n nbf).2 (Rm n - 1 - l) k =
        Real.exp ((k:ℝ)^2 - (l:ℝ)^2 + 2*(k:ℝ)^2*Real.log ((l:ℝ)/k))) := by
  refine ⟨generate_ok n nbf hodd h2, ?_, ?_⟩
  · intro i hi1 hi2
    have hcol := genLoop_col0 n nbf (i - 1) (by omega)
    have hR : R2 n (i - 1) = ((i:ℝ) - (Rm n : ℝ))^2 := by
      unfold R2
      rw [Nat.cast_sub (by omega : 1 ≤ i)]
      push_cast
      ring
    exact ⟨by rw [hcol.1, hR], by rw [hcol.2, hR]⟩
  · intro k l hkk1 hkk2 hl1 hl2
    have hg := (genLoop_entries n nbf k hodd hkk1 hkk2).2 l hl1 hl2
    have hrm : Rm n = n / 2 + 1 := rfl
    have hidx : Rm n - 1 + l = l - 1 + Rm n := by omega
    have hidx2 : Rm n - 1 - l = Rm n - l - 1 := by omega
    exact ⟨by rw [hidx, hg.2.2.1, val_eq], by rw [hidx2, hg.2.2.2, val_eq]⟩

theorem c2_witness :
    (genLoop 5 2).1 (3 - 1) 0 = 2 * Real.exp (-((((3:ℕ):ℝ) - ((Rm 5 : ℕ):ℝ))^2)) ∧
    (genLoop 5 2).2 (3 - 1) 0 = Real.exp (-((((3:ℕ):ℝ) - ((Rm 5 : ℕ):ℝ))^2)) :=
  (c2_synthesized_Mc_entries 5 2 (by decide) (by decide) (by decide)).2.1 3
    (by decide) (by decide)

/-! ### Relating the `NDMat` operations to Mathlib matrix algebra -/

theorem except_bind_ok {α β : Type} (x : α) (f : α → Except PyErr β) :
    (Except.ok x : Except PyErr α).bind f = f x := rfl

theorem except_bind_err {α β : Type} (e : PyErr) (f : α → Except PyErr β) :
    (Except.error e : Except PyErr α).bind f = (Except.error e : Except PyErr β) := rfl

theorem dot_ofMat {a b c : ℕ} (A : Matrix (Fin a) (Fin b) ℝ) (B : Matrix (Fin b) (Fin c) ℝ) :
    NDMat.dot (ofMat A) (ofMat B) = .ok (ofMat (A * B)) := by
  unfold NDMat.dot
  have hc : (ofMat A).cols = (ofMat B).rows := rfl
  rw [if_pos hc]
  congr 1
  show (⟨a, c, _⟩ : NDMat) = ⟨a, c, _⟩
  congr 1
  funext i j
  show ∑ t in Finset.range b, (ofMat A).entry i t * (ofMat B).entry t j = (ofMat (A * B)).entry i j
  rw [← Fin.sum_univ_eq_sum_range (fun t => (ofMat A).entry i t * (ofMat B).entry t j) b]
  by_cases hi : i < a
  · by_cases hj : j < c
    · show _ = (ofMat (A * B)).entry i j
      simp only [ofMat]
      rw [dif_pos ⟨hi, hj⟩, Matrix.mul_apply]
      apply Finset.sum_congr rfl
      intro t _
      rw [dif_pos ⟨hi, t.isLt⟩, dif_pos ⟨t.isLt, hj⟩]
    · simp only [ofMat]
      rw [dif_neg (fun hc => hj hc.2)]
      apply Finset.sum_eq_zero
      intro t _
      rw [dif_neg (fun hc : (t : ℕ) < b ∧ j < c => hj hc.2), mul_zero]
  · simp only [ofMat]
    rw [dif_neg (fun hc => hi hc.1)]
    apply Finset.sum_eq_zero
    intro t _
    rw [dif_neg (fun hc : i < a ∧ (t : ℕ) < b => hi hc.1), zero_mul]

theorem T_ofMat {a b : ℕ} (A : Matrix (Fin a) (Fin b) ℝ) :
    (ofMat A).T = ofMat A.transpose := by
  show (⟨b, a, _⟩ : NDMat) = ⟨b, a, _⟩
  congr 1
  funext i j
  show (ofMat A).entry j i = (ofMat A.transpose).entry i j
  simp only [ofMat]
  by_cases hi : i < b
  · by_cases hj : j < a
    · rw [dif_pos ⟨hj, hi⟩, dif_pos ⟨hi, hj⟩]
      rfl
    · rw [dif_neg (fun hc : j < a ∧ i < b => hj hc.1),
        dif_neg (fun hc : i < b ∧ j < a => hj hc.2)]
  · rw [dif_neg (fun hc : j < a ∧ i < b => hi hc.2),
      dif_neg (fun hc : i < b ∧ j < a => hi hc.1)]

theorem scale_ofMat {a b : ℕ} (A : Matrix (Fin a) (Fin b) ℝ) (c : ℝ) :
    (ofMat A).scale c = ofMat (c • A) := by
  show (⟨a, b, _⟩ : NDMat) = ⟨a, b, _⟩
  congr 1
  funext i j
  show (ofMat A).entry i j * c = (ofMat (c • A)).entry i j
  simp only [ofMat]
  by_cases h : i < a ∧ j < b
  · rw [dif_pos h, dif_pos h]
    simp [Matrix.smul_apply, mul_comm]
  · rw [dif_neg h, dif_neg h, zero_mul]

/-- C3: `basex_transform` returns exactly
`(MAGIC_SCALE/dr) · (Mc · (OpLeft · X · OpRight) · Mcᵗ)` with the fixed
constant `MAGIC_SCALE = 8.053`, for every image, bundle and `dr ≠ 0` — pure
linear algebra applied once, no iteration. -/
theorem c3_transform_formula {N nbf : ℕ} (X : Matrix (Fin N) (Fin N) ℝ)
    (M0 Mc : Matrix (Fin N) (Fin nbf) ℝ) (ML : Matrix (Fin nbf) (Fin N) ℝ)
    (MR : Matrix (Fin N) (Fin nbf) ℝ) (dr : ℝ) (hdr : dr ≠ 0) :
    basex_transform (ofMat X) (ofMat M0) (ofMat Mc) (ofMat ML) (ofMat MR) dr =
      .ok (ofMat (((8.053 : ℝ) / dr) • (Mc * (ML * X * MR) * Mc.transpose))) := by
  unfold basex_transform
  rw [dot_ofMat ML X, except_bind_ok, dot_ofMat (ML * X) MR, except_bind_ok,
    dot_ofMat Mc (ML * X * MR), except_bind_ok, T_ofMat,
    dot_ofMat (Mc * (ML * X * MR)) Mc.transpose, except_bind_ok,
    if_neg hdr, scale_ofMat]
  rfl

theorem c3_witness :
    basex_transform (ofMat (0 : Matrix (Fin 1) (Fin 1) ℝ))
      (ofMat (0 : Matrix (Fin 1) (Fin 1) ℝ)) (ofMat (0 : Matrix (Fin 1) (Fin 1) ℝ))
      (ofMat (0 : Matrix (Fin 1) (Fin 1) ℝ)) (ofMat (0 : Matrix (Fin 1) (Fin 1) ℝ)) 1 =
      .ok (ofMat (((8.053 : ℝ) / 1) • ((0 : Matrix (Fin 1) (Fin 1) ℝ) *
        ((0 : Matrix (Fin 1) (Fin 1) ℝ) * (0 : Matrix (Fin 1) (Fin 1) ℝ) *
          (0 : Matrix (Fin 1) (Fin 1) ℝ)) *
        (0 : Matrix (Fin 1) (Fin 1) ℝ).transpose))) :=
  c3_transform_formula 0 0 0 0 0 1 one_ne_zero

/-- C4: the operator builder returns exactly
`OpLeft = inverse(Mcᵗ·Mc)·Mcᵗ` (no regularization term) and
`OpRight = M·inverse(Mᵗ·M + q·I)` with `q = 1` and `I` the
`basis_count × basis_count` identity. -/
theorem c4_left_right_operators {n nbf : ℕ} (M Mc : Matrix (Fin n) (Fin nbf) ℝ) :
    get_left_right_matrices M Mc =
      ((Mc.transpose * Mc)⁻¹ * Mc.transpose,
       M * (M.transpose * M + (1 : ℝ) • (1 : Matrix (Fin nbf) (Fin nbf) ℝ))⁻¹) := by
  have hdot : ∀ {a b c : ℕ} (A : Matrix (Fin a) (Fin b) ℝ) (B : Matrix (Fin b) (Fin c) ℝ),
      npdot A B = A * B := by
    intro a b c A B
    ext i j
    rw [Matrix.mul_apply]
    rfl
  have hE : (fun i j => npidentity nbf i j * (1 : ℝ)) =
      ((1 : ℝ) • (1 : Matrix (Fin nbf) (Fin nbf) ℝ)) := by
    funext i j
    simp [npidentity, Matrix.one_apply]
  simp only [get_left_right_matrices, hdot, hE]

/-- C5: an even `size` fails with the odd-size `ValueError` (before any matrix
entry is computed), `basis_count > size//2` fails with the range `ValueError`
and is never silently truncated, and all other (odd-size,
`basis_count ≤ size//2`) configurations raise neither error. -/
theorem c5_generate_validation (n nbf : ℕ) :
    (n % 2 = 0 → generate_basis_sets n (some nbf) = .error .invalidOddN) ∧
    (n % 2 = 1 → n / 2 < nbf → generate_basis_sets n (some nbf) = .error .invalidNbf) ∧
    (n % 2 = 1 → nbf ≤ n / 2 → generate_basis_sets n (some nbf) = .ok (genLoop n nbf)) := by
  refine ⟨?_, ?_, ?_⟩
  · intro h
    unfold generate_basis_sets
    rw [if_pos h]
  · intro h hn
    unfold generate_basis_sets
    rw [if_neg (by omega)]
    simp only [nbf_default, Option.getD_some]
    rw [if_pos hn]
  · intro h hn
    exact generate_ok n nbf h hn

theorem NDMat.dot_ok (A B : NDMat) (h : A.cols = B.rows) :
    NDMat.dot A B =
      .ok ⟨A.rows, B.cols, fun i j => ∑ t in Finset.range A.cols, A.entry i t * B.entry t j⟩ := by
  unfold NDMat.dot
  rw [if_pos h]

theorem NDMat.dot_mismatch (A B : NDMat) (h : A.cols ≠ B.rows) :
    NDMat.dot A B = .error (.valueError ("shapes not aligned")) := by
  unfold NDMat.dot
  rw [if_neg h]

/-- C6 counterexample: with well-shaped 1×1 inputs and `dr = −1 ≤ 0`,
`basex_transform` returns a result instead of failing: the code performs no
validation of `dr`. -/
theorem c6_counterexample :
    isOkB (basex_transform (ofMat (0 : Matrix (Fin 1) (Fin 1) ℝ))
      (ofMat (0 : Matrix (Fin 1) (Fin 1) ℝ)) (ofMat (0 : Matrix (Fin 1) (Fin 1) ℝ))
      (ofMat (0 : Matrix (Fin 1) (Fin 1) ℝ)) (ofMat (0 : Matrix (Fin 1) (Fin 1) ℝ))
      (-1)) = true := by
  unfold basex_transform
  rw [dot_ofMat (0 : Matrix (Fin 1) (Fin 1) ℝ) (0 : Matrix (Fin 1) (Fin 1) ℝ),
    except_bind_ok, dot_ofMat, except_bind_ok, dot_ofMat, except_bind_ok, T_ofMat,
    dot_ofMat, except_bind_ok, if_neg (by norm_num : ¬((-1 : ℝ) = 0))]
  rfl

/-- C6 amended: a shape-mismatched image does make the call fail, but through
the `ValueError` of the underlying matrix product (no dedicated check); for a
well-shaped image, `dr = 0` fails with `ZeroDivisionError`, while `dr < 0`
(any `dr ≠ 0`) is accepted and returns a result — there is no `dr ≤ 0`
validation. -/
theorem c6_amended_behavior (N nbf : ℕ) (X M Mc ML MR : NDMat) (dr : ℝ)
    (hML : ML.rows = nbf) (hML2 : ML.cols = N) (hMR : MR.rows = N) (hMR2 : MR.cols = nbf)
    (hMc : Mc.rows = N) (hMc2 : Mc.cols = nbf) :
    ((X.rows ≠ N ∨ X.cols ≠ N) → isOkB (basex_transform X M Mc ML MR dr) = false) ∧
    (X.rows = N → X.cols = N →
      ((dr = 0 → basex_transform X M Mc ML MR dr = .error .zeroDivisionError) ∧
       (dr ≠ 0 → isOkB (basex_transform X M Mc ML MR dr) = true))) := by
  constructor
  · intro hmis
    by_cases hr : X.rows = N
    · have hc : X.cols ≠ N := by tauto
      have h2 : ¬(X.cols = MR.rows) := by rw [hMR]; exact hc
      simp [basex_transform, NDMat.dot, hML2, hr, h2, except_bind_ok, except_bind_err, isOkB]
    · have h1 : ¬(ML.cols = X.rows) := by rw [hML2]; exact fun hh => hr hh.symm
      simp [basex_transform, NDMat.dot, h1, except_bind_err, isOkB]
  · intro hr hc
    have h1 : ML.cols = X.rows := by rw [hML2, hr]
    have h2 : X.cols = MR.rows := by rw [hc, hMR]
    have h3 : Mc.cols = ML.rows := by rw [hMc2, hML]
    have h4 : MR.cols = Mc.cols := by rw [hMR2, hMc2]
    constructor
    · intro h0
      subst h0
      simp [basex_transform, NDMat.dot, NDMat.T, h1, h2, h3, h4, except_bind_ok]
    · intro h0
      simp [basex_transform, NDMat.dot, NDMat.T, h1, h2, h3, h4, except_bind_ok, h0, isOkB]

/-! ### Concrete stores and files used at concrete inputs -/

noncomputable def zeroMat : Mat := fun _ _ => 0

noncomputable def nd0 : NDMat := ofMat (0 : Matrix (Fin 1) (Fin 1) ℝ)

noncomputable def fsBad : Store := fun _ => some .badArity

noncomputable def fsOther : Store := fun _ => some (.unreadable false ("unpickling failed"))

noncomputable def fsLegacy : Store := fun _ => some (.npy4 zeroMat zeroMat zeroMat zeroMat)

noncomputable def fsCurrent : Store := fun _ => some (.npy5 zeroMat zeroMat zeroMat zeroMat ("0.4"))

theorem c6_amended_witness :
    ((nd0.rows ≠ 1 ∨ nd0.cols ≠ 1) →
      isOkB (basex_transform nd0 nd0 nd0 nd0 nd0 (-1)) = false) ∧
    (nd0.rows = 1 → nd0.cols = 1 →
      (((-1 : ℝ) = 0 → basex_transform nd0 nd0 nd0 nd0 nd0 (-1) = .error .zeroDivisionError) ∧
       ((-1 : ℝ) ≠ 0 → isOkB (basex_transform nd0 nd0 nd0 nd0 nd0 (-1)) = true))) :=
  c6_amended_behavior 1 1 nd0 nd0 nd0 nd0 nd0 (-1) rfl rfl rfl rfl rfl rfl

/-- C7 counterexample: with a stored bundle unreadable in both encodings, the
cache lookup surfaces the load error at once: the synthesizer is never
invoked (`synthCount = 0`) and no recovery happens, contradicting the claimed
fallback to fresh synthesis. -/
theorem c7_counterexample :
    (get_basis_sets_cached 5 (some 2) (some fsBad)).synthCount = 0 ∧
    isOkB (get_basis_sets_cached 5 (some 2) (some fsBad)).result = false := by
  constructor <;> rfl

/-- C7 amended: when the stored bundle is unreadable in both encodings, the
load error propagates immediately: no fresh synthesis is attempted and the
stored file is not overwritten; synthesis happens only when the file is
absent or no storage location is configured. -/
theorem c7_amended_corrupt_propagates (n : ℕ) (nbf? : Option ℕ) (fs : Store)
    (file : StoredFile) (hf : fs (n, nbf_default n nbf?) = some file)
    (h5 : isOkB (npLoad5 file) = false) (h4 : isOkB (npLoad4 file) = false) :
    isOkB (get_basis_sets_cached n nbf? (some fs)).result = false ∧
    (get_basis_sets_cached n nbf? (some fs)).synthCount = 0 ∧
    (get_basis_sets_cached n nbf? (some fs)).store = some fs := by
  cases file with
  | npy5 M Mc ML MR v => simp [npLoad5, isOkB] at h5
  | npy4 ML MR M Mc => simp [npLoad4, isOkB] at h4
  | badArity =>
    refine ⟨?_, ?_, ?_⟩ <;>
      simp [get_basis_sets_cached, hf, npLoad5, npLoad4, PyErr.isValueError, isOkB]
  | unreadable b msg =>
    cases b <;> (refine ⟨?_, ?_, ?_⟩ <;>
      simp [get_basis_sets_cached, hf, npLoad5, npLoad4, PyErr.isValueError, isOkB])

theorem c7_amended_witness :
    isOkB (get_basis_sets_cached 5 (some 2) (some fsBad)).result = false ∧
    (get_basis_sets_cached 5 (some 2) (some fsBad)).synthCount = 0 ∧
    (get_basis_sets_cached 5 (some 2) (some fsBad)).store = some fsBad :=
  c7_amended_corrupt_propagates 5 (some 2) fsBad .badArity rfl rfl rfl

/-- C8 counterexample: a stored file whose current-format load fails with a
non-`ValueError` exception propagates that error without the legacy encoding
ever being attempted, contradicting the claimed unconditional fallback. -/
theorem c8_counterexample :
    (get_basis_sets_cached 5 (some 2) (some fsOther)).legacyTried = false ∧
    isOkB (get_basis_sets_cached 5 (some 2) (some fsOther)).result = false := by
  constructor <;> rfl

/-- C8 amended: only when the current-format load fails with a `ValueError`
(e.g. wrong arity) does the loader attempt the legacy four-element encoding —
mapping `(OpLeft, OpRight, M, Mc)` onto the same named fields as the current
format; a load failure of any other exception class propagates immediately
with no legacy attempt. -/
theorem c8_amended_legacy_on_valueerror (n : ℕ) (nbf? : Option ℕ) (fs : Store)
    (file : StoredFile) (e : PyErr) (hf : fs (n, nbf_default n nbf?) = some file)
    (h5 : npLoad5 file = .error e) :
    (e.isValueError = true →
      (get_basis_sets_cached n nbf? (some fs)).legacyTried = true ∧
      ∀ ML MR M Mc, file = .npy4 ML MR M Mc →
        (get_basis_sets_cached n nbf? (some fs)).result = .ok ⟨M, Mc, ML, MR⟩) ∧
    (e.isValueError = false →
      (get_basis_sets_cached n nbf? (some fs)).legacyTried = false ∧
      (get_basis_sets_cached n nbf? (some fs)).result = .error e) := by
  constructor
  · intro hv
    constructor
    · cases h4 : npLoad4 file with
      | ok quad =>
        obtain ⟨ML, MR, M, Mc⟩ := quad
        simp [get_basis_sets_cached, hf, h5, hv, h4]
      | error e2 => simp [get_basis_sets_cached, hf, h5, hv, h4]
    · intro ML MR M Mc hfile
      subst hfile
      simp [get_basis_sets_cached, hf, h5, hv, npLoad4]
  · intro hv
    simp [get_basis_sets_cached, hf, h5, hv]

theorem c8_amended_witness :
    ((PyErr.valueError ("not enough values to unpack")).isValueError = true →
      (get_basis_sets_cached 5 (some 2) (some fsLegacy)).legacyTried = true ∧
      ∀ ML MR M Mc, StoredFile.npy4 zeroMat zeroMat zeroMat zeroMat = .npy4 ML MR M Mc →
        (get_basis_sets_cached 5 (some 2) (some fsLegacy)).result = .ok ⟨M, Mc, ML, MR⟩) ∧
    ((PyErr.valueError ("not enough values to unpack")).isValueError = false →
      (get_basis_sets_cached 5 (some 2) (some fsLegacy)).legacyTried = false ∧
      (get_basis_sets_cached 5 (some 2) (some fsLegacy)).result =
        .error (.valueError ("not enough values to unpack"))) :=
  c8_amended_legacy_on_valueerror 5 (some 2) fsLegacy
    (.npy4 zeroMat zeroMat zeroMat zeroMat) (.valueError ("not enough values to unpack"))
    rfl rfl

/-- C9: when the stored file at the configuration's key loads (in either
encoding), the lookup returns it without invoking the synthesizer and leaves
the store unchanged, and a second lookup on the store left by the first
returns the same result, again without synthesis (so two successive lookups
synthesize at most once and return equal matrices). -/
theorem c9_cache_hit_idempotent (n : ℕ) (nbf? : Option ℕ) (fs : Store)
    (h : loadable (fs (n, nbf_default n nbf?)) = true) :
    (get_basis_sets_cached n nbf? (some fs)).synthCount = 0 ∧
    (get_basis_sets_cached n nbf? (some fs)).store = some fs ∧
    isOkB (get_basis_sets_cached n nbf? (some fs)).result = true ∧
    (get_basis_sets_cached n nbf? ((get_basis_sets_cached n nbf? (some fs)).store)).result =
      (get_basis_sets_cached n nbf? (some fs)).result ∧
    (get_basis_sets_cached n nbf? ((get_basis_sets_cached n nbf? (some fs)).store)).synthCount +
      (get_basis_sets_cached n nbf? (some fs)).synthCount ≤ 1 := by
  cases hfile : fs (n, nbf_default n nbf?) with
  | none => rw [hfile] at h; simp [loadable] at h
  | some file =>
    cases file with
    | npy5 M Mc ML MR v =>
      refine ⟨?_, ?_, ?_, ?_, ?_⟩ <;>
        simp [get_basis_sets_cached, hfile, npLoad5, isOkB]
    | npy4 ML MR M Mc =>
      refine ⟨?_, ?_, ?_, ?_, ?_⟩ <;>
        simp [get_basis_sets_cached, hfile, npLoad5, npLoad4, PyErr.isValueError, isOkB]
    | badArity =>
      rw [hfile] at h
      simp [loadable, npLoad5, npLoad4, isOkB] at h
    | unreadable b msg =>
      rw [hfile] at h
      cases b <;> simp [loadable, npLoad5, npLoad4, isOkB] at h

theorem c9_witness :
    (get_basis_sets_cached 5 (some 2) (some fsCurrent)).synthCount = 0 ∧
    (get_basis_sets_cached 5 (some 2) (some fsCurrent)).store = some fsCurrent ∧
    isOkB (get_basis_sets_cached 5 (some 2) (some fsCurrent)).result = true ∧
    (get_basis_sets_cached 5 (some 2)
        ((get_basis_sets_cached 5 (some 2) (some fsCurrent)).store)).result =
      (get_basis_sets_cached 5 (some 2) (some fsCurrent)).result ∧
    (get_basis_sets_cached 5 (some 2)
        ((get_basis_sets_cached 5 (some 2) (some fsCurrent)).store)).synthCount +
      (get_basis_sets_cached 5 (some 2) (some fsCurrent)).synthCount ≤ 1 :=
  c9_cache_hit_idempotent 5 (some 2) fsCurrent rfl

/-- With an odd first argument the cache never surfaces the odd-size error:
loads produce only load errors, and `generate_basis_sets` is reached only
with the odd `n`. -/
theorem cached_no_oddN_of_odd (n : ℕ) (hodd : n % 2 = 1) (nbf? : Option ℕ)
    (dir : Option Store) :
    (get_basis_sets_cached n nbf? dir).result ≠ .error .invalidOddN := by
  have hgen : ∀ m : ℕ, generate_basis_sets n (some m) ≠ .error .invalidOddN := by
    intro m
    unfold generate_basis_sets
    rw [if_neg (by omega)]
    simp only [nbf_default, Option.getD_some]
    split <;> simp
  cases dir with
  | none =>
    cases hg : generate_basis_sets n (some (nbf_default n nbf?)) with
    | error e =>
      have he : e ≠ .invalidOddN := fun hh => hgen _ (by rw [hg, hh])
      simp [get_basis_sets_cached, hg, he]
    | ok pair =>
      obtain ⟨M, Mc⟩ := pair
      simp [get_basis_sets_cached, hg]
  | some fs =>
    cases hfile : fs (n, nbf_default n nbf?) with
    | none =>
      cases hg : generate_basis_sets n (some (nbf_default n nbf?)) with
      | error e =>
        have he : e ≠ .invalidOddN := fun hh => hgen _ (by rw [hg, hh])
        simp [get_basis_sets_cached, hfile, hg, he]
      | ok pair =>
        obtain ⟨M, Mc⟩ := pair
        simp [get_basis_sets_cached, hfile, hg]
    | some file =>
      cases file with
      | npy5 M Mc ML MR v => simp [get_basis_sets_cached, hfile, npLoad5]
      | npy4 ML MR M Mc =>
        simp [get_basis_sets_cached, hfile, npLoad5, npLoad4, PyErr.isValueError]
      | badArity =>
        simp [get_basis_sets_cached, hfile, npLoad5, npLoad4, PyErr.isValueError]
      | unreadable b msg =>
        cases b <;>
          simp [get_basis_sets_cached, hfile, npLoad5, npLoad4, PyErr.isValueError]

/-- C10: for `n ≥ 1` the public constructor uses size `2·(n//2)+1` (odd) for
the cache and synthesizer; an even `n` is silently coerced to `n+1`; the
constructor itself never raises the odd-size error — only a direct call to
the synthesizer with an even size does. -/
theorem c10_constructor_size (n : ℕ) (h : 1 ≤ n) :
    (BASEXn n = 2 * (n / 2) + 1 ∧ BASEXn n % 2 = 1) ∧
    (n % 2 = 0 → BASEXn n = n + 1) ∧
    (∀ nbf? dir, BASEX_init n nbf? dir = get_basis_sets_cached (2 * (n / 2) + 1) nbf? dir) ∧
    (∀ nbf? dir, (BASEX_init n nbf? dir).result ≠ .error .invalidOddN) ∧
    (∀ nbf?, n % 2 = 0 → generate_basis_sets n nbf? = .error .invalidOddN) := by
  refine ⟨⟨rfl, by unfold BASEXn; omega⟩, by intro he; unfold BASEXn; omega,
    fun _ _ => rfl, ?_, ?_⟩
  · intro nbf? dir
    exact cached_no_oddN_of_odd (BASEXn n) (by unfold BASEXn; omega) nbf? dir
  · intro nbf? he
    unfold generate_basis_sets
    rw [if_pos he]

theorem c10_witness :
    (BASEXn 4 = 2 * (4 / 2) + 1 ∧ BASEXn 4 % 2 = 1) ∧
    (4 % 2 = 0 → BASEXn 4 = 4 + 1) ∧
    (∀ nbf? dir, BASEX_init 4 nbf? dir = get_basis_sets_cached (2 * (4 / 2) + 1) nbf? dir) ∧
    (∀ nbf? dir, (BASEX_init 4 nbf? dir).result ≠ .error .invalidOddN) ∧
    (∀ nbf?, 4 % 2 = 0 → generate_basis_sets 4 nbf? = .error .invalidOddN) :=
  c10_constructor_size 4 (by decide)
